import Mathlib

/-!
# EzRecycle: the guidance-request workflow of `src/pages/Guide.jsx`

A shallow embedding of the state and handlers of the `Guide` component:
the form data, the five pieces of component state, the handlers
`handleInputChange`, `handleMaterialChange`, `createDetailedDescription`,
`handleSubmit` and `resetForm`, followed by the properties proved about them.

JavaScript strings are modelled by `String`, arrays of strings by
`List String`, `null` guidance by `none`.  The asynchronous `handleSubmit`
is split at its single `await`: `handleSubmitStart` is the part that runs
before the suspension, `handleSubmitSettle` the part that runs when the
promise settles.  React state setters act on the state current at the time
they are called, so both parts are functions from state to state.
-/

namespace EzRecycle

/-! ## Strings -/

/-- The code points that `String.prototype.trim` strips: ECMAScript
WhiteSpace and LineTerminator. -/
def isTrimChar (c : Char) : Bool :=
  let n := c.toNat
  n == 0x09 || n == 0x0A || n == 0x0B || n == 0x0C || n == 0x0D || n == 0x20 ||
  n == 0xA0 || n == 0x1680 || (0x2000 ≤ n && n ≤ 0x200A) || n == 0x2028 ||
  n == 0x2029 || n == 0x202F || n == 0x205F || n == 0x3000 || n == 0xFEFF

/-- The method `String.prototype.trim`: strips the trim characters from both ends. -/
def jsTrim (s : String) : String :=
  ⟨((s.data.dropWhile isTrimChar).reverse.dropWhile isTrimChar).reverse⟩

/-- Truthiness of a JavaScript string: every string but the empty one. -/
def truthy (s : String) : Bool :=
  decide (s ≠ "")

/-- The method `Array.prototype.join` on an array of strings. -/
def jsJoin (sep : String) : List String → String
  | [] => ""
  | [x] => x
  | x :: y :: rest => x ++ sep ++ jsJoin sep (y :: rest)

/-! ## State -/

/-- The object held in `formData` (Guide.jsx, lines 46-56). -/
structure FormData where
  itemName : String
  materials : List String
  materialsOther : String
  size : String
  condition : String
  plasticType : String
  quantity : String
  specialFeatures : String
  userLocation : String
  deriving DecidableEq, Repr

/-- The initial value of `formData`, also the value `resetForm` writes. -/
def FormData.initial : FormData where
  itemName := ""
  materials := []
  materialsOther := ""
  size := ""
  condition := ""
  plasticType := ""
  quantity := ""
  specialFeatures := ""
  userLocation := ""

/-- The five `useState` cells of the component (lines 46-60); `γ` is the
type of the guidance value the service resolves with. -/
structure State (γ : Type) where
  formData : FormData
  recyclingGuidance : Option γ
  isLoading : Bool
  error : String
  currentStep : Nat
  deriving DecidableEq, Repr

/-- The state of a freshly mounted component. -/
def State.initial (γ : Type) : State γ where
  formData := FormData.initial
  recyclingGuidance := none
  isLoading := false
  error := ""
  currentStep := 1

/-- A field name together with a value of the field's type: the two
arguments of `handleInputChange`. -/
inductive FieldValue where
  | itemName (value : String)
  | materials (value : List String)
  | materialsOther (value : String)
  | size (value : String)
  | condition (value : String)
  | plasticType (value : String)
  | quantity (value : String)
  | specialFeatures (value : String)
  | userLocation (value : String)
  deriving DecidableEq, Repr

/-- The object spread `{ ...prev, [field]: value }`. -/
def FormData.set (prev : FormData) : FieldValue → FormData
  | .itemName v => { prev with itemName := v }
  | .materials v => { prev with materials := v }
  | .materialsOther v => { prev with materialsOther := v }
  | .size v => { prev with size := v }
  | .condition v => { prev with condition := v }
  | .plasticType v => { prev with plasticType := v }
  | .quantity v => { prev with quantity := v }
  | .specialFeatures v => { prev with specialFeatures := v }
  | .userLocation v => { prev with userLocation := v }

/-! ## Handlers -/

/-- Handler `handleInputChange` (lines 97-100). -/
def handleInputChange {γ : Type} (fv : FieldValue) (s : State γ) : State γ :=
  { s with formData := s.formData.set fv, error := "" }

/-- The updater passed to `setFormData` by `handleMaterialChange`, on the
materials array alone. -/
def toggleMaterial (material : String) (materials : List String) : List String :=
  if materials.contains material then
    materials.filter (fun m => m != material)
  else
    materials ++ [material]

/-- Handler `handleMaterialChange` (lines 102-109). -/
def handleMaterialChange {γ : Type} (material : String) (s : State γ) : State γ :=
  { s with formData :=
      { s.formData with materials := toggleMaterial material s.formData.materials } }

/-- Function `createDetailedDescription` (lines 111-137), on the form data
it closes over. -/
def createDetailedDescription (formData : FormData) : String :=
  let description := "Item: " ++ formData.itemName
  let description :=
    if formData.materials.length > 0 then
      let description := description ++ "\nMaterials: " ++ jsJoin ", " formData.materials
      if truthy formData.materialsOther then
        description ++ " (" ++ formData.materialsOther ++ ")"
      else description
    else description
  let description :=
    if truthy formData.plasticType then
      description ++ "\nPlastic type/recycling code: " ++ formData.plasticType
    else description
  let description :=
    if truthy formData.size then description ++ "\nSize: " ++ formData.size
    else description
  let description :=
    if truthy formData.condition then description ++ "\nCondition: " ++ formData.condition
    else description
  let description :=
    if truthy formData.quantity then description ++ "\nQuantity: " ++ formData.quantity
    else description
  let description :=
    if truthy formData.specialFeatures then
      description ++ "\nSpecial features/concerns: " ++ formData.specialFeatures
    else description
  let description :=
    if truthy formData.userLocation then
      description ++ "\nUser Location: " ++ formData.userLocation
    else description
  description

/-- How the promise returned by `getRecyclingGuidance` settles: it resolves
with a guidance value or rejects with some error. -/
inductive Outcome (γ ε : Type) where
  | resolved (guidance : γ)
  | rejected (err : ε)
  deriving DecidableEq, Repr

/-- The part of `handleSubmit` that runs before the `await` (lines 139-151):
the new state, and the description passed to `getRecyclingGuidance` when a
request is sent. -/
def handleSubmitStart {γ : Type} (s : State γ) : State γ × Option String :=
  if !truthy (jsTrim s.formData.itemName) then
    ({ s with error := "Please provide the item name" }, none)
  else if s.formData.materials.length == 0 then
    ({ s with error := "Please select at least one material" }, none)
  else
    ({ s with isLoading := true, error := "", recyclingGuidance := none },
      some (createDetailedDescription s.formData))

/-- The part of `handleSubmit` that runs once the awaited promise has
settled (lines 152-158), on the state current at that time. -/
def handleSubmitSettle {γ ε : Type} (o : Outcome γ ε) (s : State γ) : State γ :=
  match o with
  | .resolved guidance => { s with recyclingGuidance := some guidance, isLoading := false }
  | .rejected _ =>
    { s with error := "Failed to get recycling guidance. Please try again.",
             isLoading := false }

/-- A whole run of `handleSubmit` with no other event between the request
and its settlement; `service` stands for `getRecyclingGuidance`. -/
def handleSubmit {γ ε : Type} (service : String → Outcome γ ε) (s : State γ) : State γ :=
  match handleSubmitStart s with
  | (s', none) => s'
  | (s', some description) => handleSubmitSettle (service description) s'

/-- Handler `resetForm` (lines 161-176). -/
def resetForm {γ : Type} (s : State γ) : State γ :=
  { s with formData := FormData.initial, recyclingGuidance := none, error := "",
           currentStep := 1 }

/-- The setter `setCurrentStep` (line 60), used by the step navigation. -/
def setCurrentStep {γ : Type} (step : Nat) (s : State γ) : State γ :=
  { s with currentStep := step }

/-! ## The description as a list of lines -/

/-- The eight lines a description can hold. -/
inductive Line where
  | item
  | materials
  | plasticType
  | size
  | condition
  | quantity
  | specialFeatures
  | userLocation
  deriving DecidableEq, Repr

/-- The fixed order of the lines of a description. -/
def Line.order : List Line :=
  [.item, .materials, .plasticType, .size, .condition, .quantity, .specialFeatures,
    .userLocation]

/-- The text of a line: its label followed by the field value; the
materials line is the list joined by a comma and a blank, followed by the
"Other" annotation in parentheses when `materialsOther` is not empty. -/
def Line.render (fd : FormData) : Line → String
  | .item => "Item: " ++ fd.itemName
  | .materials =>
    "Materials: " ++ String.intercalate ", " fd.materials ++
      (if fd.materialsOther = "" then "" else " (" ++ fd.materialsOther ++ ")")
  | .plasticType => "Plastic type/recycling code: " ++ fd.plasticType
  | .size => "Size: " ++ fd.size
  | .condition => "Condition: " ++ fd.condition
  | .quantity => "Quantity: " ++ fd.quantity
  | .specialFeatures => "Special features/concerns: " ++ fd.specialFeatures
  | .userLocation => "User Location: " ++ fd.userLocation

/-- Whether the source field of a line is non-empty as it stands, with
no trimming; the item line has no condition. -/
def Line.fieldNonEmpty (fd : FormData) : Line → Bool
  | .item => true
  | .materials => decide (fd.materials ≠ [])
  | .plasticType => decide (fd.plasticType ≠ "")
  | .size => decide (fd.size ≠ "")
  | .condition => decide (fd.condition ≠ "")
  | .quantity => decide (fd.quantity ≠ "")
  | .specialFeatures => decide (fd.specialFeatures ≠ "")
  | .userLocation => decide (fd.userLocation ≠ "")

/-- Whether the source field of a line is non-empty after trimming
whitespace, the condition the specification words for the assembler. -/
def Line.fieldNonEmptyTrimmed (fd : FormData) : Line → Bool
  | .item => true
  | .materials => decide (fd.materials ≠ [])
  | .plasticType => decide (jsTrim fd.plasticType ≠ "")
  | .size => decide (jsTrim fd.size ≠ "")
  | .condition => decide (jsTrim fd.condition ≠ "")
  | .quantity => decide (jsTrim fd.quantity ≠ "")
  | .specialFeatures => decide (jsTrim fd.specialFeatures ≠ "")
  | .userLocation => decide (jsTrim fd.userLocation ≠ "")

/-- The lines whose field is non-empty, in the fixed order. -/
def presentLines (fd : FormData) : List Line :=
  Line.order.filter (Line.fieldNonEmpty fd)

/-- The lines whose field is non-empty after trimming, in the fixed order. -/
def presentLinesTrimmed (fd : FormData) : List Line :=
  Line.order.filter (Line.fieldNonEmptyTrimmed fd)

/-- The description read off a list of lines: their texts joined by a
newline. -/
def descriptionOfLines (fd : FormData) (lines : List Line) : String :=
  String.intercalate "\n" (lines.map (Line.render fd))

/-! ## Sequences of edits -/

/-- The user operations that edit the form or start over. -/
inductive Op where
  | toggle (material : String)
  | input (fv : FieldValue)
  | reset
  deriving DecidableEq, Repr

/-- The handler an operation calls. -/
def Op.apply {γ : Type} : Op → State γ → State γ
  | .toggle material => handleMaterialChange material
  | .input fv => handleInputChange fv
  | .reset => resetForm

/-- Whether an operation is `handleInputChange` on the field `materials`. -/
def Op.writesMaterials : Op → Bool
  | .input (.materials _) => true
  | _ => false

/-- The state after a sequence of operations, the first of the list first. -/
def runOps {γ : Type} (ops : List Op) (s : State γ) : State γ :=
  ops.foldl (fun st op => op.apply st) s

/-! ## The assembler, step by step -/

/-- One conditional step of the assembler on the description `d` so far. -/
def addLine (c : Bool) (lab v d : String) : String :=
  if c then d ++ ("\n" ++ lab) ++ v else d

/-- The texts of the lines of a description, as the assembler adds them. -/
def lineTexts (fd : FormData) : List String :=
  ("Item: " ++ fd.itemName) ::
    (((((((([] ++
      if decide (fd.materials.length > 0) then
        ["Materials: " ++ (jsJoin ", " fd.materials ++
          if truthy fd.materialsOther then " (" ++ fd.materialsOther ++ ")" else "")]
      else []) ++
      if truthy fd.plasticType then ["Plastic type/recycling code: " ++ fd.plasticType]
      else []) ++
      if truthy fd.size then ["Size: " ++ fd.size] else []) ++
      if truthy fd.condition then ["Condition: " ++ fd.condition] else []) ++
      if truthy fd.quantity then ["Quantity: " ++ fd.quantity] else []) ++
      if truthy fd.specialFeatures then ["Special features/concerns: " ++ fd.specialFeatures]
      else []) ++
      if truthy fd.userLocation then ["User Location: " ++ fd.userLocation] else []))

/-! ## Concrete inputs -/

/-- The form `{itemName: "Bottle", materials: ["Plastic"]}`, other fields empty. -/
def bottleForm : FormData :=
  { FormData.initial with itemName := "Bottle", materials := ["Plastic"] }

/-- The bottle form with a size of one blank. -/
def blankSizeForm : FormData :=
  { bottleForm with size := " " }

/-- The form `{itemName: "Phone", materials: ["Electronics", "Battery"], quantity: "2"}`. -/
def phoneForm : FormData :=
  { FormData.initial with
    itemName := "Phone", materials := ["Electronics", "Battery"], quantity := "2" }

/-- The state after typing the item name "Bottle" into a fresh form. -/
def namedState : State String :=
  handleInputChange (.itemName "Bottle") (State.initial String)

/-- The state after a submission of `namedState`, which has no material. -/
def rejectedState : State String :=
  (handleSubmitStart namedState).1

/-- The state after typing "Bottle" and ticking "Plastic". -/
def filledState : State String :=
  handleMaterialChange "Plastic" namedState

/-- The filled state on step 4 with a request in flight. -/
def loadingState : State String :=
  (handleSubmitStart (setCurrentStep 4 filledState)).1

/-- A service that resolves every request with the same guidance. -/
def resolvingService (description : String) : Outcome String String :=
  .resolved ("guidance for: " ++ description)

/-- A service that rejects every request. -/
def rejectingService (_description : String) : Outcome String String :=
  .rejected "network down"

/-- A sequence of edits that toggles materials on and off, types and starts over. -/
def sampleOps : List Op :=
  [.toggle "Plastic", .input (.itemName "Jar"), .toggle "Glass", .toggle "Plastic",
    .toggle "Plastic", .reset, .toggle "Wood", .toggle "Glass", .toggle "Wood", .toggle "Wood"]

/-! ## Joining strings -/

theorem jsJoin_cons_append (sep p a : String) (rest : List String) :
    jsJoin sep ((p ++ a) :: rest) = p ++ jsJoin sep (a :: rest) := by
  cases rest with
  | nil => rfl
  | cons b bs => simp [jsJoin, String.append_assoc]

theorem intercalate_go_eq_jsJoin (sep : String) (rest : List String) (acc : String) :
    String.intercalate.go acc sep rest = jsJoin sep (acc :: rest) := by
  induction rest generalizing acc with
  | nil => rfl
  | cons a as ih =>
    rw [String.intercalate.go, ih, jsJoin_cons_append]
    simp [jsJoin, String.append_assoc]

theorem jsJoin_eq_intercalate (sep : String) (l : List String) :
    jsJoin sep l = String.intercalate sep l := by
  cases l with
  | nil => rfl
  | cons a as => simp [String.intercalate, intercalate_go_eq_jsJoin]

theorem jsJoin_snoc (sep : String) (l : List String) (x : String) (h : l ≠ []) :
    jsJoin sep (l ++ [x]) = jsJoin sep l ++ sep ++ x := by
  induction l with
  | nil => exact absurd rfl h
  | cons a as ih =>
    cases as with
    | nil => rfl
    | cons b bs =>
      have hb : jsJoin sep ((b :: bs) ++ [x]) = jsJoin sep (b :: bs) ++ sep ++ x :=
        ih (List.cons_ne_nil b bs)
      simp only [List.cons_append] at hb ⊢
      simp only [jsJoin] at hb ⊢
      rw [hb]
      simp [String.append_assoc]

/-- One conditional `description += ...` step of the assembler, when the
description so far is a join of lines: the step adds one line or none. -/
theorem jsJoin_addLine (a : String) (rest : List String) (c : Bool) (lab v : String) :
    (if c then jsJoin "\n" (a :: rest) ++ ("\n" ++ lab) ++ v else jsJoin "\n" (a :: rest))
      = jsJoin "\n" (a :: (rest ++ if c then [lab ++ v] else [])) := by
  cases c with
  | false => simp
  | true =>
    have h := jsJoin_snoc "\n" (a :: rest) (lab ++ v) (List.cons_ne_nil a rest)
    simp only [List.cons_append] at h
    simp only [if_true, h, String.append_assoc]

theorem createDetailedDescription_eq_jsJoin (fd : FormData) :
    createDetailedDescription fd = jsJoin "\n" (lineTexts fd) := by
  have hm : ∀ d : String,
      (if fd.materials.length > 0 then
        (if truthy fd.materialsOther = true then
          d ++ "\nMaterials: " ++ jsJoin ", " fd.materials ++ " (" ++ fd.materialsOther ++ ")"
        else d ++ "\nMaterials: " ++ jsJoin ", " fd.materials)
      else d)
      = (if decide (fd.materials.length > 0) then
          d ++ ("\n" ++ "Materials: ") ++ (jsJoin ", " fd.materials ++
            if truthy fd.materialsOther then " (" ++ fd.materialsOther ++ ")" else "")
        else d) := by
    intro d
    have e : "\nMaterials: " = "\n" ++ "Materials: " := rfl
    rw [e]
    by_cases h1 : fd.materials.length > 0 <;> by_cases h2 : truthy fd.materialsOther = true <;>
      simp only [h1, h2, if_true, if_false, decide_True, decide_False, String.append_assoc,
        String.append_empty]
    all_goals simp
  have h0 : createDetailedDescription fd =
      addLine (truthy fd.userLocation) "User Location: " fd.userLocation
      (addLine (truthy fd.specialFeatures) "Special features/concerns: " fd.specialFeatures
      (addLine (truthy fd.quantity) "Quantity: " fd.quantity
      (addLine (truthy fd.condition) "Condition: " fd.condition
      (addLine (truthy fd.size) "Size: " fd.size
      (addLine (truthy fd.plasticType) "Plastic type/recycling code: " fd.plasticType
      (addLine (decide (fd.materials.length > 0)) "Materials: "
        (jsJoin ", " fd.materials ++
          if truthy fd.materialsOther then " (" ++ fd.materialsOther ++ ")" else "")
      (jsJoin "\n" ["Item: " ++ fd.itemName]))))))) := by
    unfold createDetailedDescription
    simp only [hm]
    rfl
  rw [h0]
  simp only [addLine, jsJoin_addLine, lineTexts]


theorem lineTexts_eq_map_render (fd : FormData) :
    lineTexts fd = (presentLines fd).map (Line.render fd) := by
  have hlen : (fd.materials.length > 0) = (fd.materials ≠ []) := by
    cases fd.materials <;> simp
  unfold lineTexts presentLines
  simp only [hlen, truthy, Line.order, jsJoin_eq_intercalate]
  by_cases h1 : fd.materials = [] <;> by_cases h2 : fd.plasticType = "" <;>
    by_cases h3 : fd.size = "" <;> by_cases h4 : fd.condition = "" <;>
    by_cases h5 : fd.quantity = "" <;> by_cases h6 : fd.specialFeatures = "" <;>
    by_cases h7 : fd.userLocation = "" <;>
    simp only [h1, h2, h3, h4, h5, h6, h7, Line.fieldNonEmpty, Line.render, List.filter,
      List.map, List.nil_append, List.append_nil, List.cons_append, decide_True, decide_False,
      decide_not, Bool.not_true, Bool.not_false, if_true, if_false, ne_eq, not_true_eq_false,
      not_false_eq_true, Bool.false_eq_true] <;>
    by_cases h8 : fd.materialsOther = "" <;> simp [h8, String.append_assoc]

/-- The assembler yields the newline-joined texts of the lines whose field
is non-empty, in the fixed order. -/
theorem createDetailedDescription_eq (fd : FormData) :
    createDetailedDescription fd = descriptionOfLines fd (presentLines fd) := by
  rw [createDetailedDescription_eq_jsJoin, lineTexts_eq_map_render, jsJoin_eq_intercalate]
  rfl

theorem jsJoin_ends_with_last (sep : String) (l : List String) (x : String) :
    ∃ pre, jsJoin sep (l ++ [x]) = pre ++ x := by
  cases l with
  | nil => exact ⟨"", rfl⟩
  | cons a as =>
    exact ⟨jsJoin sep (a :: as) ++ sep, jsJoin_snoc sep (a :: as) x (List.cons_ne_nil a as)⟩

theorem mem_presentLines (fd : FormData) (l : Line) :
    l ∈ presentLines fd ↔ Line.fieldNonEmpty fd l = true := by
  have h : l ∈ Line.order := by cases l <;> simp [Line.order]
  simp [presentLines, List.mem_filter, h]

/-! ## Validation -/

/-- Claim C1. For every state, `handleSubmit` sends no request exactly when the
trimmed item name is empty or no material is selected. With an empty trimmed
item name the only change is the error "Please provide the item name",
whatever the other fields hold; with a non-empty trimmed name and no material
the only change is the error "Please select at least one material"; in both
cases `isLoading` is left as it was and the whole run ends in that state
whatever the service would answer. Otherwise the request is sent with the
assembled description, `isLoading` becomes true and the error is cleared. -/
theorem handleSubmit_validation {γ : Type} (s : State γ) :
    ((handleSubmitStart s).2 = none ↔
      (jsTrim s.formData.itemName = "" ∨ s.formData.materials = [])) ∧
    (jsTrim s.formData.itemName = "" →
      handleSubmitStart s = ({ s with error := "Please provide the item name" }, none) ∧
      ∀ (ε : Type) (service : String → Outcome γ ε),
        handleSubmit service s = { s with error := "Please provide the item name" }) ∧
    (jsTrim s.formData.itemName ≠ "" → s.formData.materials = [] →
      handleSubmitStart s =
        ({ s with error := "Please select at least one material" }, none) ∧
      ∀ (ε : Type) (service : String → Outcome γ ε),
        handleSubmit service s = { s with error := "Please select at least one material" }) ∧
    (jsTrim s.formData.itemName ≠ "" → s.formData.materials ≠ [] →
      handleSubmitStart s =
        ({ s with isLoading := true, error := "", recyclingGuidance := none },
          some (createDetailedDescription s.formData))) := by
  by_cases hn : jsTrim s.formData.itemName = ""
  · simp [handleSubmit, handleSubmitStart, truthy, hn]
  · by_cases hm : s.formData.materials = []
    · simp [handleSubmit, handleSubmitStart, truthy, hn, hm]
    · simp [handleSubmit, handleSubmitStart, truthy, hn, hm]

/-- An instance of C1: a fresh form, whose item name is empty and which has no
material, is refused with the item-name message and nothing else changes. -/
theorem handleSubmit_validation_witness :
    jsTrim (State.initial String).formData.itemName = "" ∧
    handleSubmitStart (State.initial String) =
      ({ State.initial String with error := "Please provide the item name" }, none) :=
  ⟨by decide, ((handleSubmit_validation (State.initial String)).2.1 (by decide)).1⟩

/-! ## The description -/

/-- Claim C2, as the code has it. The assembler yields the newline-joined
lines, in the fixed order, of the item name and of every optional field whose
value is non-empty as it stands, with no trimming: the line of materials is
left out exactly when the list is empty, and the line of plastic type, size,
condition, quantity, special features or location exactly when that string is
the empty string. The bottle form yields "Item: Bottle\nMaterials: Plastic". -/
theorem createDetailedDescription_omits_iff_empty (fd : FormData) :
    createDetailedDescription fd = descriptionOfLines fd (presentLines fd) ∧
    (Line.item ∈ presentLines fd) ∧
    (Line.materials ∉ presentLines fd ↔ fd.materials = []) ∧
    (Line.plasticType ∉ presentLines fd ↔ fd.plasticType = "") ∧
    (Line.size ∉ presentLines fd ↔ fd.size = "") ∧
    (Line.condition ∉ presentLines fd ↔ fd.condition = "") ∧
    (Line.quantity ∉ presentLines fd ↔ fd.quantity = "") ∧
    (Line.specialFeatures ∉ presentLines fd ↔ fd.specialFeatures = "") ∧
    (Line.userLocation ∉ presentLines fd ↔ fd.userLocation = "") ∧
    createDetailedDescription bottleForm = "Item: Bottle\nMaterials: Plastic" := by
  refine ⟨createDetailedDescription_eq fd, ?_, ?_, ?_, ?_, ?_, ?_, ?_, ?_, by decide⟩ <;>
    simp [mem_presentLines, Line.fieldNonEmpty]

/-- Claim C2 fails as stated: a size of one blank is empty after trimming, yet
the assembler keeps its line. The output differs from the one with the size
line left out, which is what the trimmed rule asks for. -/
theorem createDetailedDescription_keeps_blank_size :
    jsTrim blankSizeForm.size = "" ∧
    createDetailedDescription blankSizeForm = "Item: Bottle\nMaterials: Plastic\nSize:  " ∧
    descriptionOfLines blankSizeForm (presentLinesTrimmed blankSizeForm)
      = "Item: Bottle\nMaterials: Plastic" ∧
    createDetailedDescription blankSizeForm
      ≠ descriptionOfLines blankSizeForm (presentLinesTrimmed blankSizeForm) := by
  decide

/-- Claim C3. The assembler yields the texts of the present lines joined by a
newline; the present lines are a sublist of the fixed order item name,
materials, plastic type, size, condition, quantity, special features,
location; the materials line is the label followed by the materials joined by
", " in stored order (and by the annotation in parentheses when
`materialsOther` is non-empty); the output ends with the text of the last
present line, nothing follows it; the phone form yields
"Item: Phone\nMaterials: Electronics, Battery\nQuantity: 2". -/
theorem createDetailedDescription_ordered_lines (fd : FormData) :
    createDetailedDescription fd
      = String.intercalate "\n" ((presentLines fd).map (Line.render fd)) ∧
    List.Sublist (presentLines fd)
      [Line.item, Line.materials, Line.plasticType, Line.size, Line.condition,
        Line.quantity, Line.specialFeatures, Line.userLocation] ∧
    Line.render fd Line.materials
      = "Materials: " ++ String.intercalate ", " fd.materials ++
          (if fd.materialsOther = "" then "" else " (" ++ fd.materialsOther ++ ")") ∧
    (∃ pre last, (presentLines fd).getLast? = some last ∧
      createDetailedDescription fd = pre ++ Line.render fd last) ∧
    createDetailedDescription phoneForm
      = "Item: Phone\nMaterials: Electronics, Battery\nQuantity: 2" := by
  refine ⟨createDetailedDescription_eq fd, List.filter_sublist _, rfl, ?_, by decide⟩
  have hitem : Line.item ∈ presentLines fd := by simp [mem_presentLines, Line.fieldNonEmpty]
  cases hl : (presentLines fd).getLast? with
  | none =>
    rw [List.getLast?_eq_none_iff] at hl
    rw [hl] at hitem
    exact absurd hitem (List.not_mem_nil _)
  | some last =>
    obtain ⟨ys, hys⟩ := List.getLast?_eq_some_iff.mp hl
    obtain ⟨pre, hpre⟩ := jsJoin_ends_with_last "\n" (ys.map (Line.render fd)) (Line.render fd last)
    refine ⟨pre, last, rfl, ?_⟩
    rw [createDetailedDescription_eq, descriptionOfLines, ← jsJoin_eq_intercalate, hys,
      List.map_append, List.map_singleton, hpre]

/-! ## Starting over -/

/-- Claim C4, as the code has it. From every state `resetForm` restores the
form to its initial empty value, the step to 1, the guidance to null and the
error to the empty string, and leaves `isLoading` as it was: the result is the
initial state except for `isLoading`, which keeps its value. -/
theorem resetForm_restores_all_but_isLoading {γ : Type} (s : State γ) :
    (resetForm s).formData = FormData.initial ∧
    (resetForm s).currentStep = 1 ∧
    (resetForm s).recyclingGuidance = none ∧
    (resetForm s).error = "" ∧
    (resetForm s).isLoading = s.isLoading ∧
    resetForm s = { State.initial γ with isLoading := s.isLoading } :=
  ⟨rfl, rfl, rfl, rfl, rfl, rfl⟩

/-- Claim C4 fails as stated: with a request in flight on step 4, reached from
the initial state by typing a name, ticking a material, moving to step 4 and
submitting, `resetForm` leaves `isLoading` true, so the result is not the
initial state. -/
theorem resetForm_keeps_isLoading :
    loadingState.isLoading = true ∧
    loadingState.currentStep = 4 ∧
    (resetForm loadingState).isLoading = true ∧
    resetForm loadingState ≠ State.initial String := by
  decide

/-! ## Settlement of the request -/

/-- Claim C5, as the code has it. When a form passes validation, a request is
sent; if `resetForm` runs before the request settles, the settlement is still
applied to the state after the reset: a resolution with `g` gives the initial
state with guidance `g`, a rejection gives the initial state with the generic
error; `isLoading` is false in both. -/
theorem stale_settlement_is_applied {γ ε : Type} (s : State γ) (o : Outcome γ ε)
    (hname : jsTrim s.formData.itemName ≠ "") (hmat : s.formData.materials ≠ []) :
    (handleSubmitStart s).2 = some (createDetailedDescription s.formData) ∧
    handleSubmitSettle o (resetForm (handleSubmitStart s).1) =
      (match o with
        | .resolved g => { State.initial γ with recyclingGuidance := some g }
        | .rejected _ =>
          { State.initial γ with
            error := "Failed to get recycling guidance. Please try again." }) := by
  cases o <;>
    simp [handleSubmitStart, handleSubmitSettle, resetForm, State.initial, truthy, hname, hmat]

/-- An instance of C5 as amended: the filled form, reset while its request is
in flight, ends with the guidance of the stale resolution. -/
theorem stale_settlement_is_applied_witness :
    jsTrim filledState.formData.itemName ≠ "" ∧ filledState.formData.materials ≠ [] ∧
    handleSubmitSettle (Outcome.resolved "advice" : Outcome String String)
        (resetForm (handleSubmitStart filledState).1)
      = { State.initial String with recyclingGuidance := some "advice" } :=
  ⟨by decide, by decide,
    (stale_settlement_is_applied filledState (Outcome.resolved "advice" : Outcome String String)
      (by decide) (by decide)).2⟩

/-- Claim C5 fails as stated: after submit, reset, then settle, a resolution
leaves a non-null guidance in the state after the reset, and a rejection
leaves a non-empty error there. -/
theorem stale_settlement_changes_reset_state :
    (handleSubmitStart filledState).2 = some "Item: Bottle\nMaterials: Plastic" ∧
    (resetForm (handleSubmitStart filledState).1).recyclingGuidance = none ∧
    (resetForm (handleSubmitStart filledState).1).error = "" ∧
    (handleSubmitSettle (Outcome.resolved "advice" : Outcome String String)
      (resetForm (handleSubmitStart filledState).1)).recyclingGuidance = some "advice" ∧
    (handleSubmitSettle (Outcome.rejected "network down" : Outcome String String)
      (resetForm (handleSubmitStart filledState).1)).error
        = "Failed to get recycling guidance. Please try again." := by
  decide

/-- Claim C8. For every state that passes validation and every service that
resolves the request for the assembled description with `g`, the run of
`handleSubmit` ends in the state at submission with guidance `g`, `isLoading`
false and the error cleared; the form fields and the step are those at
submission. -/
theorem handleSubmit_resolved {γ ε : Type} (service : String → Outcome γ ε) (s : State γ)
    (g : γ) (hname : jsTrim s.formData.itemName ≠ "") (hmat : s.formData.materials ≠ [])
    (hres : service (createDetailedDescription s.formData) = .resolved g) :
    handleSubmit service s =
      { s with recyclingGuidance := some g, isLoading := false, error := "" } ∧
    (handleSubmit service s).formData = s.formData ∧
    (handleSubmit service s).currentStep = s.currentStep := by
  simp [handleSubmit, handleSubmitStart, handleSubmitSettle, truthy, hname, hmat, hres]

/-- An instance of C8: the filled form on step 4 with a resolving service. -/
theorem handleSubmit_resolved_witness :
    handleSubmit resolvingService (setCurrentStep 4 filledState) =
      { setCurrentStep 4 filledState with
        recyclingGuidance := some "guidance for: Item: Bottle\nMaterials: Plastic",
        isLoading := false, error := "" } :=
  (handleSubmit_resolved resolvingService (setCurrentStep 4 filledState)
    "guidance for: Item: Bottle\nMaterials: Plastic" (by decide) (by decide) (by decide)).1

/-- Claim C9. For every state that passes validation, whatever guidance it held
before, and every service that rejects the request for the assembled
description, with any error, the run of `handleSubmit` ends in the state at
submission with the error "Failed to get recycling guidance. Please try
again.", guidance null and `isLoading` false; the form fields and the step are
those at submission. -/
theorem handleSubmit_rejected {γ ε : Type} (service : String → Outcome γ ε) (s : State γ)
    (err : ε) (hname : jsTrim s.formData.itemName ≠ "") (hmat : s.formData.materials ≠ [])
    (hrej : service (createDetailedDescription s.formData) = .rejected err) :
    handleSubmit service s =
      { s with recyclingGuidance := none, isLoading := false,
               error := "Failed to get recycling guidance. Please try again." } ∧
    (handleSubmit service s).formData = s.formData ∧
    (handleSubmit service s).currentStep = s.currentStep := by
  simp [handleSubmit, handleSubmitStart, handleSubmitSettle, truthy, hname, hmat, hrej]

/-- An instance of C9: the filled form on step 4, holding an earlier guidance,
with a rejecting service. -/
theorem handleSubmit_rejected_witness :
    handleSubmit rejectingService
        { setCurrentStep 4 filledState with recyclingGuidance := some "earlier advice" } =
      { setCurrentStep 4 filledState with
        recyclingGuidance := none, isLoading := false,
        error := "Failed to get recycling guidance. Please try again." } :=
  (handleSubmit_rejected rejectingService
    { setCurrentStep 4 filledState with recyclingGuidance := some "earlier advice" }
    "network down" (by decide) (by decide) (by decide)).1

/-! ## Edits -/

theorem handleInputChange_clears_error {γ : Type} (fv : FieldValue) (s : State γ) :
    (handleInputChange fv s).error = "" :=
  rfl

theorem handleMaterialChange_error {γ : Type} (material : String) (s : State γ) :
    (handleMaterialChange material s).error = s.error :=
  rfl

/-- Claim C6 at its failing input. `handleInputChange` clears the error on
every field and value, but `handleMaterialChange` does not: after a submission
refused for want of a material, ticking "Plastic" selects the material and the
error "Please select at least one material" stays. -/
theorem handleMaterialChange_keeps_error :
    (∀ (fv : FieldValue) (s : State String), (handleInputChange fv s).error = "") ∧
    rejectedState.error = "Please select at least one material" ∧
    (handleMaterialChange "Plastic" rejectedState).formData.materials = ["Plastic"] ∧
    (handleMaterialChange "Plastic" rejectedState).error
      = "Please select at least one material" ∧
    (handleMaterialChange "Plastic" rejectedState).error ≠ "" :=
  ⟨fun _ _ => rfl, by decide, by decide, by decide, by decide⟩

theorem toggleMaterial_of_mem (material : String) (materials : List String)
    (h : material ∈ materials) :
    toggleMaterial material materials = materials.filter (fun m => m != material) := by
  simp [toggleMaterial, h]

theorem toggleMaterial_of_not_mem (material : String) (materials : List String)
    (h : material ∉ materials) :
    toggleMaterial material materials = materials ++ [material] := by
  simp [toggleMaterial, h]

theorem mem_toggleMaterial_twice (material : String) (materials : List String) (x : String) :
    x ∈ toggleMaterial material (toggleMaterial material materials) ↔ x ∈ materials := by
  by_cases h : material ∈ materials
  · have h2 : material ∉ materials.filter (fun m => m != material) := by
      simp [List.mem_filter]
    rw [toggleMaterial_of_mem material materials h, toggleMaterial_of_not_mem _ _ h2]
    simp only [List.mem_append, List.mem_filter, List.mem_singleton, bne_iff_ne, ne_eq]
    constructor
    · rintro (⟨hx, _⟩ | hx)
      · exact hx
      · exact hx ▸ h
    · intro hx
      by_cases hxm : x = material
      · exact Or.inr hxm
      · exact Or.inl ⟨hx, hxm⟩
  · have h2 : material ∈ materials ++ [material] := by simp
    rw [toggleMaterial_of_not_mem material materials h, toggleMaterial_of_mem _ _ h2]
    simp only [List.mem_filter, List.mem_append, List.mem_singleton, bne_iff_ne, ne_eq]
    constructor
    · rintro ⟨hx | hx, hne⟩
      · exact hx
      · exact absurd hx hne
    · intro hx
      exact ⟨Or.inl hx, fun hxm => h (hxm ▸ hx)⟩

/-- Claim C7. For every state and every material `m`, two calls of
`handleMaterialChange m` in succession leave `materials` with the members it
had before, whether or not `m` was one of them, and change no other field of
the form data nor any other part of the state. -/
theorem handleMaterialChange_twice {γ : Type} (material : String) (s : State γ) :
    (∀ x, x ∈ (handleMaterialChange material (handleMaterialChange material s)).formData.materials
      ↔ x ∈ s.formData.materials) ∧
    handleMaterialChange material (handleMaterialChange material s) =
      { s with formData :=
        { s.formData with
          materials :=
            (handleMaterialChange material (handleMaterialChange material s)).formData.materials } } :=
  ⟨fun x => mem_toggleMaterial_twice material s.formData.materials x, rfl⟩

theorem toggleMaterial_nodup (material : String) (materials : List String)
    (h : materials.Nodup) : (toggleMaterial material materials).Nodup := by
  by_cases hm : material ∈ materials
  · rw [toggleMaterial_of_mem material materials hm]
    exact h.filter _
  · rw [toggleMaterial_of_not_mem material materials hm, List.nodup_append]
    refine ⟨h, List.nodup_singleton _, ?_⟩
    intro a ha hb
    rw [List.mem_singleton] at hb
    exact hm (hb ▸ ha)

theorem Op.apply_nodup {γ : Type} (op : Op) (s : State γ) (hop : op.writesMaterials = false)
    (h : s.formData.materials.Nodup) : (op.apply s).formData.materials.Nodup := by
  cases op with
  | toggle material => exact toggleMaterial_nodup material _ h
  | input fv =>
    cases fv <;> first | exact h | exact absurd hop (by simp [Op.writesMaterials])
  | reset => exact List.nodup_nil

theorem runOps_nodup {γ : Type} (ops : List Op) (s : State γ)
    (hops : ∀ op ∈ ops, op.writesMaterials = false) (h : s.formData.materials.Nodup) :
    (runOps ops s).formData.materials.Nodup := by
  induction ops generalizing s with
  | nil => exact h
  | cons op rest ih =>
    have hop : op.writesMaterials = false := hops op (List.mem_cons_self op rest)
    have hrest : ∀ o ∈ rest, o.writesMaterials = false :=
      fun o ho => hops o (List.mem_cons_of_mem op ho)
    exact ih (op.apply s) hrest (Op.apply_nodup op s hop h)

/-- Claim C10. In every state reached from the initial state by a finite
sequence of `handleMaterialChange`, `handleInputChange` on a field other than
`materials`, and `resetForm`, the materials list has no duplicate element. -/
theorem reachable_materials_nodup {γ : Type} (ops : List Op)
    (hops : ∀ op ∈ ops, op.writesMaterials = false) :
    (runOps ops (State.initial γ)).formData.materials.Nodup :=
  runOps_nodup ops (State.initial γ) hops List.nodup_nil

/-- An instance of C10: a sequence of edits that ticks and unticks materials,
types a name and starts over ends with two distinct materials. -/
theorem reachable_materials_nodup_witness :
    (∀ op ∈ sampleOps, op.writesMaterials = false) ∧
    (runOps sampleOps (State.initial String)).formData.materials = ["Glass", "Wood"] ∧
    (runOps sampleOps (State.initial String)).formData.materials.Nodup :=
  ⟨by decide, by decide, reachable_materials_nodup sampleOps (by decide)⟩

end EzRecycle
